import Mathlib

/-!
Verification of the Repository Context Assembly Pipeline of
`github_summarizer_agent` (files `repo_service.py` and `main.py`).

Shallow embedding conventions:

* A file of the cloned repository is a `RepoFile`: its path relative to the
  repository root (directory components plus filename), its text content, its
  byte size, and two flags recording whether `stat` and `read_text` succeed
  (`read_text` is called with `errors="replace"`, so `readOk = false` models
  the rare non-decoding exceptions swallowed by the bare `except`).
  Identity of a file is its relative path, as in the source.
* Python strings are Lean `String`s; Python string comparison, splitting and
  suffix tests are modelled structurally on `String.data` (`charsLt`,
  `splitOnChar`, `strEndsWith`) because they must be executable.
* The external tokenizer (`tiktoken`, `_enc`) is modelled by the character
  encoding: `encode = String.data`, `decode = String.mk`, so one token = one
  character.  This preserves the interface the source relies on
  (`decode (take n (encode s))` is a prefix of `s`, counting is additive on
  concatenation is NOT assumed anywhere it does not hold for real BPE
  tokenizers except where stated in the theorems themselves).
* External collaborators (git, the OpenAI client, `json.loads`) are inputs:
  the clone outcome carries the repository's files, the ranking oracle's
  reply arrives already JSON-decoded as `Except Unit Json` (`error` models
  `json.JSONDecodeError` after markdown-fence stripping), and the
  summarization call is a success flag plus text.
-/

namespace RepoSummarizer

/-- Fixed directory-name exclusion set (`SKIP_DIRS` in `repo_service.py`). -/
def SKIP_DIRS : List String :=
  ["node_modules", ".git", "__pycache__", ".venv", "venv", "env",
   "dist", "build", ".next", ".nuxt", "vendor", ".tox", ".mypy_cache",
   ".pytest_cache", "coverage", ".idea", ".vscode", "docs", ".github"]

/-- Fixed filename-suffix exclusion set (`SKIP_EXTENSIONS`). -/
def SKIP_EXTENSIONS : List String :=
  [".png", ".jpg", ".jpeg", ".gif", ".svg", ".ico", ".webp",
   ".mp4", ".mp3", ".wav", ".mov",
   ".woff", ".woff2", ".ttf", ".eot",
   ".pdf", ".zip", ".tar", ".gz", ".bz2",
   ".lock", ".min.js", ".min.css",
   ".pyc", ".pyo", ".so", ".dll", ".dylib",
   ".DS_Store", ".gitignore"]

/-- Fixed high-value filename set (`HIGH_PRIORITY_NAMES`). -/
def HIGH_PRIORITY_NAMES : List String :=
  ["README.md", "readme.md", "README.rst",
   "main.py", "app.py", "index.py", "server.py", "cli.py",
   "index.ts", "index.js", "app.ts", "app.js", "main.ts", "main.js",
   "setup.py", "setup.cfg", "pyproject.toml",
   "package.json", "Cargo.toml", "go.mod",
   "Makefile", "Dockerfile", "docker-compose.yml",
   "requirements.txt"]

/-- Fixed low-value directory-name set (`LOW_PRIORITY_DIRS`). -/
def LOW_PRIORITY_DIRS : List String :=
  ["test", "tests", "spec", "specs", "examples", "example",
   "docs_src", "benchmarks", "scripts"]

def MAX_FILE_SIZE : Nat := 100000

def MAX_FILES : Nat := 150

def MAX_CONTEXT_TOKENS : Nat := 100000

/-- The fixed instruction text that accompanies the assembled document
(`SYSTEM_PROMPT` in `repo_service.py`, transcribed verbatim). -/
def SYSTEM_PROMPT : String :=
  "You are a code analyst. Given a repository's directory structure and file contents, produce a clear, human-readable summary.\n\nYour summary should include these sections:\n1. **Purpose** — What does this project do? (1-2 sentences)\n2. **Repository supports** - Proposed solution**: what this repo suggest the developers / users ? for example: you can use this repo to train detection model etc..\n3. **Key Components** — The most important files/classes/functions and what they do\n4. **Architecture** — How is the codebase organized? Key modules/packages\n5. **Tech Stack** — Languages, frameworks, and key dependencies\n6. **Getting Started** — How to install and run the project (if discernible from the code)\n\nKeep the summary concise but informative. Focus on what matters most to someone seeing this project for the first time.\nDo NOT include a title or heading like \"Repository Summary\" at the top. Start directly with the content."

/-- A file of the cloned repository, relative to the repository root.
`dirs` are the ancestor directory components and `fname` the filename, so
`rel.parts = dirs ++ [fname]`. -/
structure RepoFile where
  dirs : List String
  fname : String
  content : String
  size : Nat
  statOk : Bool
  readOk : Bool
deriving DecidableEq

/-- Python `str.join` (`sep.join(parts)`). -/
def joinSep (sep : String) : List String → String
  | [] => ""
  | [s] => s
  | s :: rest => s ++ sep ++ joinSep sep rest

/-- The relative path string of a file (`str(f.relative_to(repo_path))`).
The source sorts by the absolute path `str(f)`; since every file shares the
same `repo_path` prefix, that order coincides with the relative-path order. -/
def relPathStr (f : RepoFile) : String :=
  joinSep "/" (f.dirs ++ [f.fname])

/-- Lexicographic comparison of character lists by code point: the order
Python uses on `str`. -/
def charsLt : List Char → List Char → Bool
  | [], [] => false
  | [], _ :: _ => true
  | _ :: _, [] => false
  | a :: as, b :: bs => if a < b then true else if b < a then false else charsLt as bs

/-- Python `s < t` on strings. -/
def strLt (s t : String) : Bool := charsLt s.data t.data

/-- Python `s.endswith(suf)`. -/
def strEndsWith (s suf : String) : Bool :=
  s.data.reverse.take suf.data.length == suf.data.reverse

/-- Python `s.split(c)` for a one-character separator (keeps empty pieces). -/
def splitOnChar (c : Char) : List Char → List (List Char)
  | [] => [[]]
  | a :: rest =>
    let r := splitOnChar c rest
    if a == c then [] :: r
    else
      match r with
      | [] => [[a]]
      | g :: gs => (a :: g) :: gs

/-- `len(rel.parts)` for a file: its path depth. -/
def fileDepth (f : RepoFile) : Nat := f.dirs.length + 1

/-- The sort key comparison of `_prioritize_files`:
`key = lambda f: (len(f.relative_to(repo_path).parts), str(f))`, compared as
a Python tuple (depth first, then path string). -/
def keyLt (a b : RepoFile) : Bool :=
  if fileDepth a < fileDepth b then true
  else if fileDepth b < fileDepth a then false
  else strLt (relPathStr a) (relPathStr b)

/-- Insert into a sorted list, after every element not greater: with
`foldr`, this is a stable insertion sort, the model of Python `list.sort`. -/
def insertSorted (a : RepoFile) : List RepoFile → List RepoFile
  | [] => [a]
  | b :: bs => if keyLt b a then b :: insertSorted a bs else a :: b :: bs

/-- Stable sort by `keyLt` (Python `list.sort(key=...)`). -/
def sortByKey (l : List RepoFile) : List RepoFile :=
  l.foldr insertSorted []

/-- The HIGH test of `_prioritize_files`: `rel.name in HIGH_PRIORITY_NAMES`. -/
def isHigh (f : RepoFile) : Bool := HIGH_PRIORITY_NAMES.contains f.fname

/-- The LOW test of `_prioritize_files`: `set(rel.parts) & LOW_PRIORITY_DIRS`.
Note `rel.parts` includes the filename itself, not only ancestor
directories. -/
def hasLowPart (f : RepoFile) : Bool :=
  (f.dirs ++ [f.fname]).any (fun p => LOW_PRIORITY_DIRS.contains p)

/-- The ancestor-directory-only low test, written from the spec's words
("any ancestor directory name matches a fixed low-value directory set") for
comparison with the source's `hasLowPart`. -/
def specAncestorLow (f : RepoFile) : Bool :=
  f.dirs.any (fun p => LOW_PRIORITY_DIRS.contains p)

/-- `_prioritize_files`: the single pass appending each file to the first
matching tier is rendered as three order-preserving filters; each tier is
then stably sorted by `(depth, path)` as in the source. -/
def prioritizeFiles (files : List RepoFile) :
    List RepoFile × List RepoFile × List RepoFile :=
  (sortByKey (files.filter (fun f => isHigh f)),
   sortByKey (files.filter (fun f => !isHigh f && !hasLowPart f)),
   sortByKey (files.filter (fun f => !isHigh f && hasLowPart f)))

/-- The per-file retention test of `filter_files`'s walk: not under a skipped
directory (`os.walk` prunes `dirs` in place, so any skipped ancestor hides
the file), filename not ending in a skipped suffix, `stat` succeeded, and
size within the per-file ceiling. -/
def keepFile (f : RepoFile) : Bool :=
  f.dirs.all (fun d => !SKIP_DIRS.contains d) &&
  !(SKIP_EXTENSIONS.any (fun e => strEndsWith f.fname e)) &&
  f.statOk && f.size ≤ MAX_FILE_SIZE

/-- `filter_files`: walk + filter + prioritize; the repository subtree is
given as the list of files the walk would visit. An unknown `priority`
string falls through to the high+medium+low branch, exactly as the
source's `if/elif/return` does. -/
def filter_files (repo : List RepoFile) (priority : String) : List RepoFile :=
  let filtered := repo.filter keepFile
  let tiers := prioritizeFiles filtered
  if priority == "high" then tiers.1
  else if priority == "high+medium" then tiers.1 ++ tiers.2.1
  else tiers.1 ++ tiers.2.1 ++ tiers.2.2

/-! ### Token budgeter (`_count_tokens`, `_truncate_to_tokens`, `read_all_contents`) -/

/-- Names always read in full (`FULL_READ_NAMES`). -/
def FULL_READ_NAMES : List String :=
  ["README.md", "readme.md", "README.rst",
   "main.py", "app.py", "index.py"]

/-- `_count_tokens` under the character tokenizer model
(`len(_enc.encode(text))`). -/
def countTokens (s : String) : Nat := s.length

/-- Index of the last `'\n'` in a character list (Python `str.rfind("\n")`,
`none` standing for `-1`). -/
def rfindNewline : List Char → Option Nat
  | [] => none
  | c :: rest =>
    match rfindNewline rest with
    | some i => some (i + 1)
    | none => if c = '\n' then some 0 else none

/-- The marker `_truncate_to_tokens` appends after cutting. -/
def truncMarker : String := "\n\n... [truncated] ..."

/-- `_truncate_to_tokens`: keep the text when it fits; otherwise decode the
token-count prefix, back off to the last newline when one occurs at a
positive index (`if last_newline > 0`), and append the marker. -/
def truncateToTokens (text : String) (maxTokens : Nat) : String :=
  let tokens := text.data
  if tokens.length ≤ maxTokens then text
  else
    let truncated := tokens.take maxTokens
    let cut :=
      match rfindNewline truncated with
      | some i => if 0 < i then truncated.take i else truncated
      | none => truncated
    String.mk cut ++ truncMarker

/-- "  " repeated `n` times: the indentation of `_build_directory_tree`. -/
def treeIndent (n : Nat) : String := String.join (List.replicate n "  ")

/-- The inner loop of `_build_directory_tree` for one file: emit a line for
each not-yet-seen ancestor directory (`seen_dirs` is a set, modelled as a
list used only through membership). Returns the updated seen set and the
new lines. -/
def dirLinesFor (seen : List (List String)) (dirs : List String) :
    List (List String) × List String :=
  (List.range dirs.length).foldl
    (fun st i =>
      let dp := dirs.take (i + 1)
      if st.1.contains dp then st
      else (st.1 ++ [dp],
            st.2 ++ [treeIndent (dp.length - 1) ++ dp.getLastD "" ++ "/"]))
    (seen, [])

/-- The body lines of `_build_directory_tree` (directory lines interleaved
with one line per file, in file-list order). -/
def buildTreeLines (files : List RepoFile) : List String :=
  (files.foldl
    (fun (st : List (List String) × List String) f =>
      let res := dirLinesFor st.1 f.dirs
      (res.1, st.2 ++ res.2 ++ [treeIndent f.dirs.length ++ f.fname]))
    ([], [])).2

/-- `_build_directory_tree`: header, fence, body lines, closing fence,
joined by newlines. -/
def buildDirectoryTree (files : List RepoFile) : String :=
  joinSep "\n" (["# Directory Structure", "```"] ++ buildTreeLines files ++ ["```"])

/-- One rendered file chunk: `f"## File: {rel_path}\n```\n{content}\n```"`. -/
def mkChunk (f : RepoFile) (content : String) : String :=
  "## File: " ++ relPathStr f ++ "\n```\n" ++ content ++ "\n```"

/-- The chunk rendered for one trimmable file (lines 252-259): the raw
chunk, or, when it exceeds the per-file share, the chunk of the content
truncated to `per_file_budget - 20` tokens. -/
def trimChunk (perFileBudget : Nat) (f : RepoFile) : String :=
  let chunk := mkChunk f f.content
  if countTokens chunk > perFileBudget then
    mkChunk f (truncateToTokens f.content (perFileBudget - 20))
  else chunk

/-- The trimmable-file loop of `read_all_contents` (lines 251-265): render
each chunk via `trimChunk`, stop (`break`) as soon as a chunk would push
the running total over the budget. Returns the appended chunks and the
final running total. -/
def addTrimmable (tokenBudget perFileBudget total : Nat) :
    List RepoFile → List String × Nat
  | [] => ([], total)
  | f :: rest =>
    let chunk := trimChunk perFileBudget f
    if total + countTokens chunk > tokenBudget then ([], total)
    else
      let res := addTrimmable tokenBudget perFileBudget
        (total + countTokens chunk) rest
      (chunk :: res.1, res.2)

/-- The chunk list assembled by `read_all_contents` from the first
`MAX_FILES` files: full-read chunks unconditionally, then trimmable chunks
under the budget loop (`context_parts`). `tree` only enters through its
token count, exactly as in the source. -/
def contextParts (tree : String) (files : List RepoFile) : List String :=
  let tokenBudget := MAX_CONTEXT_TOKENS - countTokens SYSTEM_PROMPT
  let totalTokens := countTokens tree
  let filesToRead := files.take MAX_FILES
  let readable := filesToRead.filter (fun f => f.readOk)
  let fullReadFiles := readable.filter (fun f => FULL_READ_NAMES.contains f.fname)
  let trimmableFiles := readable.filter (fun f => !FULL_READ_NAMES.contains f.fname)
  let fullChunks := fullReadFiles.map (fun f => mkChunk f f.content)
  let totalAfterFull := totalTokens + (fullChunks.map countTokens).sum
  let remainingBudget := tokenBudget - totalAfterFull
  let trimParts :=
    if !trimmableFiles.isEmpty && 0 < remainingBudget then
      (addTrimmable tokenBudget
        (max (remainingBudget / trimmableFiles.length) 50)
        totalAfterFull trimmableFiles).1
    else []
  fullChunks ++ trimParts

/-- `read_all_contents`: directory tree over the WHOLE file list, then the
assembled chunks, joined with blank lines. -/
def read_all_contents (files : List RepoFile) : String :=
  let tree := buildDirectoryTree files
  tree ++ "\n\n" ++ joinSep "\n\n" (contextParts tree files)

/-! ### Importance selector (`select_important_files`) -/

/-- A decoded JSON value: what `json.loads` can hand back. -/
inductive Json
  | jnull
  | jbool (b : Bool)
  | jnum (n : Int)
  | jstr (s : String)
  | jarr (xs : List Json)
  | jobj (kvs : List (String × Json))

/-- The Python runtime error that escapes the selector (only
`json.JSONDecodeError` is caught). -/
inductive PyErr
  | typeError
deriving DecidableEq

/-- Python iteration `for p in selected`: a list yields its elements, a
string its characters (as one-character strings), a dict its keys;
iterating over null/bool/number raises `TypeError`. -/
def pyIter : Json → Except PyErr (List Json)
  | .jarr xs => .ok xs
  | .jstr s => .ok (s.data.map (fun c => .jstr (String.mk [c])))
  | .jobj kvs => .ok (kvs.map (fun kv => Json.jstr kv.1))
  | _ => .error .typeError

/-- `rel_to_abs[p]` lookup for the dict
`{str(f.relative_to(repo_path)): f for f in files}`: on duplicate relative
paths the last binding wins, hence the reversed search. -/
def lookupRel (files : List RepoFile) (p : String) : Option RepoFile :=
  files.reverse.find? (fun f => relPathStr f == p)

/-- The comprehension `[rel_to_abs[p] for p in selected if p in rel_to_abs]`
over already-iterated items: a string item is kept iff it is a known
relative path; an unhashable item (list/dict) makes the membership test
raise `TypeError`; other hashable items are simply not keys and are
dropped. -/
def comprehendItems (files : List RepoFile) : List Json → Except PyErr (List RepoFile)
  | [] => .ok []
  | item :: rest =>
    match item with
    | .jarr _ => .error .typeError
    | .jobj _ => .error .typeError
    | .jstr s =>
      (match lookupRel files s with
       | some f => (comprehendItems files rest).map (fun l => f :: l)
       | none => comprehendItems files rest)
    | _ => comprehendItems files rest

/-- Iterate the decoded reply and run the comprehension. -/
def comprehend (files : List RepoFile) (j : Json) : Except PyErr (List RepoFile) :=
  match pyIter j with
  | .error e => .error e
  | .ok items => comprehendItems files items

/-- What the selector produced, plus whether the oracle was consulted. -/
structure SelectOutcome where
  result : Except PyErr (List RepoFile)
  oracleCalled : Bool

/-- `select_important_files`: identity below the cap (no oracle call);
otherwise decode failure falls back to `files[:max_files]`, a successful
decode runs the comprehension, and an empty match list falls back too
(`return result or files[:max_files]`). -/
def select_important_files (files : List RepoFile) (reply : Except Unit Json)
    (maxFiles : Nat) : SelectOutcome :=
  if files.length ≤ maxFiles then ⟨.ok files, false⟩
  else
    match reply with
    | .error _ => ⟨.ok (files.take maxFiles), true⟩
    | .ok j =>
      match comprehend files j with
      | .error e => ⟨.error e, true⟩
      | .ok res => ⟨.ok (if res.isEmpty then files.take maxFiles else res), true⟩

/-- The matched file list a decoded reply contributes (empty on decode
failure or on a raising comprehension); used to bound the selector's output
length. -/
def matchedFiles (files : List RepoFile) (reply : Except Unit Json) : List RepoFile :=
  match reply with
  | .error _ => []
  | .ok j =>
    match comprehend files j with
    | .ok l => l
    | .error _ => []

/-! ### URL parsing, pipeline and endpoint (`parse_github_url`,
`process_repo`, `main.summarize`) -/

/-- The components `urllib.parse.urlparse` hands to `parse_github_url`. -/
structure ParsedUrl where
  hostname : Option String
  path : String
deriving DecidableEq

/-- Python `s.strip("/")` on the URL path. -/
def stripSlashes (s : String) : String :=
  String.mk (((s.data.dropWhile (fun c => c == '/')).reverse.dropWhile
    (fun c => c == '/')).reverse)

/-- `parse_github_url`: host check, split the stripped path on `/`, demand
owner and repo segments, drop a trailing `.git` from the repo
(`re.sub(r"\.git$", "", ...)`), reject empty owner or repo. -/
def parse_github_url (u : ParsedUrl) : Except String (String × String) :=
  if u.hostname = some "github.com" ∨ u.hostname = some "www.github.com" then
    let parts := (splitOnChar '/' (stripSlashes u.path).data).map String.mk
    if parts.length < 2 then .error "URL must include owner and repo"
    else
      let owner := parts.headD ""
      let repo1 := parts.getD 1 ""
      let repo :=
        if strEndsWith repo1 ".git" then
          String.mk (repo1.data.take (repo1.data.length - 4))
        else repo1
      if owner = "" ∨ repo = "" then .error "Could not extract owner and repo"
      else .ok (owner, repo)
  else .error "Not a GitHub URL"

/-- Observable resource events of one pipeline run. `tmpCreated` is
`tempfile.mkdtemp` inside `clone_repo` (which runs before `git clone`);
`tmpRemoved` is the `shutil.rmtree` in `process_repo`'s `finally`;
`oracleCalled` covers both the ranking and the summarization calls. -/
structure PipelineTrace where
  cloneCalled : Bool
  tmpCreated : Bool
  tmpRemoved : Bool
  oracleCalled : Bool
deriving DecidableEq

/-- The failure that aborts a run. -/
inductive RunError
  | valueError (msg : String)
  | cloneError
  | selectError (e : PyErr)
  | summarizeError

/-- Outcome of the external `git clone`: success flag and, on success, the
files of the materialized subtree. -/
structure CloneOutcome where
  ok : Bool
  repoFiles : List RepoFile

/-- The external oracle behavior for one run: the decoded ranking reply,
and the summarization call's success and text. -/
structure OracleEnv where
  selectReply : Except Unit Json
  summarizeOk : Bool
  summaryText : String

/-- `process_repo`: parse, clone, then the `try`/`finally` body
(filter → select → read → summarize). `clone_repo` creates the temp
directory BEFORE running `git clone` and is called outside the `try`, so a
clone failure leaves `tmpCreated` without `tmpRemoved`; every failure
inside the `try` reaches the `finally` and removes it. -/
def process_repo (u : ParsedUrl) (priority : String) (clone : CloneOutcome)
    (env : OracleEnv) : Except RunError String × PipelineTrace :=
  match parse_github_url u with
  | .error msg => (.error (.valueError msg), ⟨false, false, false, false⟩)
  | .ok _ =>
    if clone.ok then
      let files := filter_files clone.repoFiles priority
      let sel := select_important_files files env.selectReply 20
      match sel.result with
      | .error e => (.error (.selectError e), ⟨true, true, true, sel.oracleCalled⟩)
      | .ok important =>
        let _context := read_all_contents important
        if env.summarizeOk then (.ok env.summaryText, ⟨true, true, true, true⟩)
        else (.error .summarizeError, ⟨true, true, true, true⟩)
    else (.error .cloneError, ⟨true, true, false, false⟩)

/-- The priority modes `main.summarize` accepts. -/
def VALID_PRIORITIES : List String := ["all", "high", "high+medium"]

/-- The `/summarize` endpoint of `main.py`: URL validation, then priority
validation, both BEFORE `process_repo`; pipeline failures surface as 500.
Errors are `(HTTP status, detail)`. -/
def summarize (u : ParsedUrl) (priority : String) (clone : CloneOutcome)
    (env : OracleEnv) : Except (Nat × String) String × PipelineTrace :=
  match parse_github_url u with
  | .error msg => (.error (400, msg), ⟨false, false, false, false⟩)
  | .ok _ =>
    if VALID_PRIORITIES.contains priority then
      match process_repo u priority clone env with
      | (.ok s, tr) => (.ok s, tr)
      | (.error _, tr) => (.error (500, "Failed to process repo"), tr)
    else (.error (400, "priority must be all, high, or high+medium"),
          ⟨false, false, false, false⟩)

/-! ### Order lemmas for the tier sort -/

theorem charsLt_asymm : ∀ (a b : List Char),
    charsLt a b = true → charsLt b a = false
  | [], [], h => by simp [charsLt] at h
  | [], _ :: _, _ => rfl
  | _ :: _, [], h => by simp [charsLt] at h
  | a :: as, b :: bs, h => by
    simp only [charsLt] at h ⊢
    rcases lt_trichotomy a b with hab | hab | hab
    · rw [if_neg (lt_asymm hab), if_pos hab]
    · subst hab
      rw [if_neg (lt_irrefl a), if_neg (lt_irrefl a)] at h ⊢
      exact charsLt_asymm as bs h
    · rw [if_neg (lt_asymm hab), if_pos hab] at h
      exact absurd h (by simp)

theorem charsLt_false_trans : ∀ (a b c : List Char),
    charsLt b a = false → charsLt c b = false → charsLt c a = false
  | [], b, c, _, _ => by cases c <;> rfl
  | _ :: _, [], _, h1, _ => by simp [charsLt] at h1
  | _ :: _, _ :: _, [], _, h2 => by simp [charsLt] at h2
  | x :: xs, y :: ys, z :: zs, h1, h2 => by
    simp only [charsLt] at h1 h2 ⊢
    have hyx : ¬ y < x := by
      intro hc; rw [if_pos hc] at h1; exact absurd h1 (by simp)
    have hzy : ¬ z < y := by
      intro hc; rw [if_pos hc] at h2; exact absurd h2 (by simp)
    have hzx : ¬ z < x :=
      fun hc => hzy (lt_of_lt_of_le hc (le_of_not_lt hyx))
    rw [if_neg hzx]
    by_cases hxz : x < z
    · rw [if_pos hxz]
    · rw [if_neg hxz]
      have hxy : ¬ x < y :=
        fun hc => hxz (lt_of_lt_of_le hc (le_of_not_lt hzy))
      have hyz : ¬ y < z :=
        fun hc => hxz (lt_of_le_of_lt (le_of_not_lt hyx) hc)
      rw [if_neg hyx, if_neg hxy] at h1
      rw [if_neg hzy, if_neg hyz] at h2
      exact charsLt_false_trans xs ys zs h1 h2


theorem keyLt_asymm (a b : RepoFile) (h : keyLt a b = true) :
    keyLt b a = false := by
  unfold keyLt at h ⊢
  rcases Nat.lt_trichotomy (fileDepth a) (fileDepth b) with hd | hd | hd
  · rw [if_neg (Nat.lt_asymm hd), if_pos hd]
  · rw [hd] at h ⊢
    rw [if_neg (lt_irrefl _), if_neg (lt_irrefl _)] at h ⊢
    unfold strLt at h ⊢
    exact charsLt_asymm _ _ h
  · rw [if_neg (Nat.lt_asymm hd), if_pos hd] at h
    exact absurd h (by simp)

theorem keyLt_false_trans (a b c : RepoFile) (h1 : keyLt b a = false)
    (h2 : keyLt c b = false) : keyLt c a = false := by
  unfold keyLt at h1 h2 ⊢
  have hba : ¬ fileDepth b < fileDepth a := by
    intro hc; rw [if_pos hc] at h1; exact absurd h1 (by simp)
  have hcb : ¬ fileDepth c < fileDepth b := by
    intro hc; rw [if_pos hc] at h2; exact absurd h2 (by simp)
  have hca : ¬ fileDepth c < fileDepth a := by omega
  rw [if_neg hca]
  by_cases hac : fileDepth a < fileDepth c
  · rw [if_pos hac]
  · rw [if_neg hac]
    have hab : ¬ fileDepth a < fileDepth b := by omega
    have hbc : ¬ fileDepth b < fileDepth c := by omega
    rw [if_neg hba, if_neg hab] at h1
    rw [if_neg hcb, if_neg hbc] at h2
    unfold strLt at h1 h2 ⊢
    exact charsLt_false_trans _ _ _ h1 h2

/-- The sortedness relation established by the tier sort: no later element
is strictly key-below an earlier one. -/
def keyLe (a b : RepoFile) : Prop := keyLt b a = false

theorem mem_insertSorted (a x : RepoFile) (l : List RepoFile) :
    x ∈ insertSorted a l ↔ x = a ∨ x ∈ l := by
  induction l with
  | nil => simp [insertSorted]
  | cons b bs ih =>
    unfold insertSorted
    by_cases hlt : keyLt b a = true
    · rw [if_pos hlt]
      simp only [List.mem_cons, ih]
      tauto
    · rw [if_neg hlt]
      simp only [List.mem_cons]

theorem pairwise_insertSorted (a : RepoFile) (l : List RepoFile)
    (h : l.Pairwise keyLe) : (insertSorted a l).Pairwise keyLe := by
  induction l with
  | nil => simp [insertSorted]
  | cons b bs ih =>
    rw [List.pairwise_cons] at h
    obtain ⟨hb, hbs⟩ := h
    unfold insertSorted
    by_cases hlt : keyLt b a = true
    · rw [if_pos hlt]
      rw [List.pairwise_cons]
      refine ⟨fun x hx => ?_, ih hbs⟩
      rw [mem_insertSorted] at hx
      rcases hx with rfl | hx
      · exact keyLt_asymm _ _ hlt
      · exact hb x hx
    · rw [if_neg hlt]
      rw [List.pairwise_cons]
      refine ⟨fun x hx => ?_, List.Pairwise.cons hb hbs⟩
      rcases List.mem_cons.mp hx with rfl | hx
      · exact Bool.eq_false_iff.mpr hlt
      · exact keyLt_false_trans a b x (Bool.eq_false_iff.mpr hlt) (hb x hx)

theorem mem_sortByKey (x : RepoFile) (l : List RepoFile) :
    x ∈ sortByKey l ↔ x ∈ l := by
  induction l with
  | nil => simp [sortByKey]
  | cons a rest ih =>
    show x ∈ insertSorted a (sortByKey rest) ↔ _
    rw [mem_insertSorted, ih]
    simp

theorem pairwise_sortByKey (l : List RepoFile) :
    (sortByKey l).Pairwise keyLe := by
  induction l with
  | nil => simp [sortByKey]
  | cons a rest ih => exact pairwise_insertSorted a (sortByKey rest) ih

/-! ### C5 — priority classification -/

/-- C5 (amended): `_prioritize_files` partitions every candidate into
exactly one of HIGH/MEDIUM/LOW with this precedence: HIGH iff the filename
is in the high-value name set; otherwise LOW iff ANY component of the
relative path — an ancestor directory OR the filename itself — is in the
low-value directory set; otherwise MEDIUM.  (The claim's "some ancestor
directory name" is amended to "some path component including the
filename": the source tests `set(rel.parts)`, which contains the
filename.)  The three membership characterizations below are exhaustive
and mutually exclusive because the conditions are. -/
theorem prioritize_files_partition (files : List RepoFile) (f : RepoFile) :
    (f ∈ (prioritizeFiles files).1 ↔ f ∈ files ∧ isHigh f = true) ∧
    (f ∈ (prioritizeFiles files).2.1 ↔
      f ∈ files ∧ isHigh f = false ∧ hasLowPart f = false) ∧
    (f ∈ (prioritizeFiles files).2.2 ↔
      f ∈ files ∧ isHigh f = false ∧ hasLowPart f = true) := by
  unfold prioritizeFiles
  simp only [mem_sortByKey, List.mem_filter, Bool.and_eq_true,
    Bool.not_eq_true']
  tauto

/-- C5 (counterexample): a repository-root file literally named `test` has
no ancestor directory at all, is not a high-value name, yet the code
classifies it LOW and not MEDIUM — by the claim's precedence it should be
MEDIUM. -/
def rootTestFile : RepoFile := ⟨[], "test", "", 0, true, true⟩

theorem prioritize_files_filename_low_counterexample :
    rootTestFile ∈ (prioritizeFiles [rootTestFile]).2.2 ∧
    isHigh rootTestFile = false ∧
    specAncestorLow rootTestFile = false ∧
    rootTestFile ∉ (prioritizeFiles [rootTestFile]).2.1 := by
  decide

/-! ### C8 — tree scanner (`filter_files`) -/

/-- C8 (amended): with the default `all` mode, `filter_files` keeps exactly
the walked files that are (a) not under an excluded directory name,
(b) whose filename does not end with an excluded suffix, (c) whose `stat`
succeeds with size ≤ 100000 — but its result is NOT in lexical
relative-path order: it is the HIGH tier, then MEDIUM, then LOW, each tier
sorted by `(path depth, path string)`. -/
theorem filter_files_membership_order (repo : List RepoFile) :
    (∀ f, f ∈ filter_files repo "all" ↔ f ∈ repo ∧ keepFile f = true) ∧
    (filter_files repo "all" =
      (prioritizeFiles (repo.filter keepFile)).1 ++
      (prioritizeFiles (repo.filter keepFile)).2.1 ++
      (prioritizeFiles (repo.filter keepFile)).2.2) ∧
    (prioritizeFiles (repo.filter keepFile)).1.Pairwise keyLe ∧
    (prioritizeFiles (repo.filter keepFile)).2.1.Pairwise keyLe ∧
    (prioritizeFiles (repo.filter keepFile)).2.2.Pairwise keyLe := by
  refine ⟨fun f => ?_, rfl, pairwise_sortByKey _, pairwise_sortByKey _,
    pairwise_sortByKey _⟩
  show f ∈ (prioritizeFiles (repo.filter keepFile)).1 ++
      (prioritizeFiles (repo.filter keepFile)).2.1 ++
      (prioritizeFiles (repo.filter keepFile)).2.2 ↔ _
  unfold prioritizeFiles
  simp only [List.mem_append, mem_sortByKey, List.mem_filter,
    Bool.and_eq_true, Bool.not_eq_true']
  constructor
  · rintro ((⟨h, _⟩ | ⟨h, _⟩) | ⟨h, _⟩) <;> exact h
  · intro h
    by_cases hh : isHigh f = true
    · exact Or.inl (Or.inl ⟨h, hh⟩)
    · by_cases hl : hasLowPart f = true
      · exact Or.inr ⟨h, Bool.eq_false_iff.mpr hh, hl⟩
      · exact Or.inl (Or.inr ⟨h, Bool.eq_false_iff.mpr hh,
          Bool.eq_false_iff.mpr hl⟩)

/-- C8 (counterexample): two root files `a.txt` (MEDIUM) and `main.py`
(HIGH).  Lexically `a.txt` precedes `main.py`, but `filter_files` returns
`[main.py, a.txt]`: the output is not in lexical relative-path order. -/
def fMainPy : RepoFile := ⟨[], "main.py", "", 0, true, true⟩

def fAtxt : RepoFile := ⟨[], "a.txt", "", 0, true, true⟩

theorem filter_files_order_counterexample :
    filter_files [fAtxt, fMainPy] "all" = [fMainPy, fAtxt] ∧
    strLt (relPathStr fAtxt) (relPathStr fMainPy) = true ∧
    ¬ (filter_files [fAtxt, fMainPy] "all").Pairwise
        (fun x y => strLt (relPathStr y) (relPathStr x) = false) := by
  have he : filter_files [fAtxt, fMainPy] "all" = [fMainPy, fAtxt] := rfl
  refine ⟨he, by decide, ?_⟩
  rw [he]
  decide

/-! ### C3, C4, C9 — importance selector -/

theorem lookupRel_mem (files : List RepoFile) (p : String) (f : RepoFile)
    (h : lookupRel files p = some f) : f ∈ files := by
  unfold lookupRel at h
  exact List.mem_reverse.mp (List.mem_of_find?_eq_some h)

theorem comprehendItems_sound (files : List RepoFile) :
    ∀ (items : List Json) (l : List RepoFile),
      comprehendItems files items = .ok l →
      (∀ x ∈ l, x ∈ files) ∧ l.length ≤ items.length := by
  intro items
  induction items with
  | nil =>
    intro l h
    simp only [comprehendItems] at h
    cases h
    simp
  | cons item rest ih =>
    intro l h
    cases item with
    | jarr xs => simp [comprehendItems] at h
    | jobj kvs => simp [comprehendItems] at h
    | jstr s =>
      simp only [comprehendItems] at h
      cases hl : lookupRel files s with
      | none =>
        rw [hl] at h
        obtain ⟨hs, hlen⟩ := ih l h
        exact ⟨hs, hlen.trans (Nat.le_succ _)⟩
      | some f =>
        rw [hl] at h
        cases hrest : comprehendItems files rest with
        | error e => rw [hrest] at h; simp [Except.map] at h
        | ok l' =>
          rw [hrest] at h
          simp only [Except.map, Except.ok.injEq] at h
          subst h
          obtain ⟨hs, hlen⟩ := ih l' hrest
          refine ⟨fun x hx => ?_, by simpa using Nat.succ_le_succ hlen⟩
          rcases List.mem_cons.mp hx with rfl | hx
          · exact lookupRel_mem files s x hl
          · exact hs x hx
    | jnull =>
      simp only [comprehendItems] at h
      obtain ⟨hs, hlen⟩ := ih l h
      exact ⟨hs, hlen.trans (Nat.le_succ _)⟩
    | jbool b =>
      simp only [comprehendItems] at h
      obtain ⟨hs, hlen⟩ := ih l h
      exact ⟨hs, hlen.trans (Nat.le_succ _)⟩
    | jnum n =>
      simp only [comprehendItems] at h
      obtain ⟨hs, hlen⟩ := ih l h
      exact ⟨hs, hlen.trans (Nat.le_succ _)⟩

/-- C3 (amended): whenever `select_important_files` returns (rather than
raising), every element of its output is an element of its input — but its
length is only bounded by `max 20 (number of matched reply entries)`: a
well-formed oracle reply naming more than 20 known paths is passed through
uncapped, so "length ≤ 20" holds only when the matched reply is no longer
than the cap. -/
theorem select_important_files_subset_len (files : List RepoFile)
    (reply : Except Unit Json) (out : List RepoFile)
    (h : (select_important_files files reply 20).result = .ok out) :
    (∀ x ∈ out, x ∈ files) ∧
    out.length ≤ max 20 (matchedFiles files reply).length := by
  unfold select_important_files at h
  by_cases hlen : files.length ≤ 20
  · rw [if_pos hlen] at h
    cases h
    exact ⟨fun x hx => hx, le_max_of_le_left hlen⟩
  · rw [if_neg hlen] at h
    cases reply with
    | error e =>
      dsimp only at h
      cases h
      exact ⟨fun x hx => List.mem_of_mem_take hx,
        le_max_of_le_left (List.length_take_le _ _)⟩
    | ok j =>
      dsimp only at h
      cases hc : comprehend files j with
      | error e => rw [hc] at h; cases h
      | ok res =>
        rw [hc] at h
        simp only [SelectOutcome.mk.injEq] at h
        have hsound : (∀ x ∈ res, x ∈ files) := by
          unfold comprehend at hc
          cases hp : pyIter j with
          | error e => rw [hp] at hc; cases hc
          | ok items =>
            rw [hp] at hc
            exact (comprehendItems_sound files items res hc).1
        by_cases hemp : res.isEmpty
        · rw [if_pos hemp] at h
          cases h
          exact ⟨fun x hx => List.mem_of_mem_take hx,
            le_max_of_le_left (List.length_take_le _ _)⟩
        · rw [if_neg hemp] at h
          cases h
          refine ⟨hsound, le_max_of_le_right ?_⟩
          simp [matchedFiles, hc]

/-- C3 (counterexample): 21 candidate files and a well-formed oracle reply
listing all 21 paths.  The selector returns all 21 files: its output length
exceeds the cap of 20. -/
def file21Names : List String :=
  ["a01", "a02", "a03", "a04", "a05", "a06", "a07", "a08", "a09", "a10",
   "a11", "a12", "a13", "a14", "a15", "a16", "a17", "a18", "a19", "a20",
   "a21"]

def files21 : List RepoFile :=
  file21Names.map (fun s => ⟨[], s, "", 0, true, true⟩)

def reply21 : Json := .jarr (file21Names.map (fun s => .jstr s))

theorem select_important_files_len_counterexample :
    (select_important_files files21 (.ok reply21) 20).result = .ok files21 ∧
    20 < files21.length := by
  exact ⟨rfl, by decide⟩

/-- C4 (amended): with more than 20 candidates, the selector falls back to
the first 20 elements of its tier-ordered input when JSON decoding fails,
or when the reply iterates without raising but matches no known path.  (A
reply that decodes to a non-sequence JSON value — see the counterexample —
raises instead.) -/
theorem select_important_files_fallback (files : List RepoFile)
    (reply : Except Unit Json) (hlen : 20 < files.length)
    (hbad : reply = .error () ∨
      ∃ j, reply = .ok j ∧ comprehend files j = .ok []) :
    (select_important_files files reply 20).result = .ok (files.take 20) := by
  unfold select_important_files
  rw [if_neg (not_le.mpr hlen)]
  rcases hbad with rfl | ⟨j, rfl, hj⟩
  · rfl
  · dsimp only
    rw [hj]
    rfl

theorem select_important_files_fallback_witness :
    (select_important_files files21 (.error ()) 20).result =
      .ok (files21.take 20) :=
  select_important_files_fallback files21 (.error ()) (by decide)
    (Or.inl rfl)

/-- C4 (counterexample): a reply that is valid JSON but not the expected
list structure — the number `42` — makes the comprehension raise
`TypeError`, which `select_important_files` does not catch (only
`json.JSONDecodeError` is): selection aborts the pipeline instead of
falling back. -/
theorem select_important_files_raise_counterexample :
    (select_important_files files21 (.ok (.jnum 42)) 20).result =
      .error .typeError := rfl

/-- C9: with at most 20 candidates the selector is the identity and makes
no oracle call. -/
theorem select_important_files_identity (files : List RepoFile)
    (reply : Except Unit Json) (h : files.length ≤ 20) :
    select_important_files files reply 20 = ⟨.ok files, false⟩ := by
  unfold select_important_files
  rw [if_pos h]

theorem select_important_files_identity_witness :
    select_important_files [fAtxt] (.ok (.jnum 42)) 20 =
      ⟨.ok [fAtxt], false⟩ :=
  select_important_files_identity [fAtxt] (.ok (.jnum 42)) (by decide)

/-! ### C2 — temp-directory cleanup; C7 — priority-mode validation -/

def demoUrl : ParsedUrl := ⟨some "github.com", "/owner/repo"⟩

def demoEnv : OracleEnv := ⟨.error (), true, "summary"⟩

/-- C2 (counterexample): when the external `git clone` itself fails,
`clone_repo` has already created the temp directory (`tempfile.mkdtemp`
runs before `subprocess.run`), but `clone_repo` is called OUTSIDE
`process_repo`'s `try`, so the `finally` cleanup never runs: the temp
subtree is created and not removed. -/
theorem process_repo_cleanup_counterexample :
    (process_repo demoUrl "all" ⟨false, []⟩ demoEnv).2.tmpCreated = true ∧
    (process_repo demoUrl "all" ⟨false, []⟩ demoEnv).2.tmpRemoved = false :=
  ⟨rfl, rfl⟩

/-- C2 (amended): cleanup is guaranteed on every exit path AFTER a
successful clone (selection failure, summarization failure, success); the
external-clone failure path leaks the freshly created temp directory. -/
theorem process_repo_cleanup_after_clone (u : ParsedUrl) (priority : String)
    (clone : CloneOutcome) (env : OracleEnv) (hc : clone.ok = true)
    (hcr : (process_repo u priority clone env).2.tmpCreated = true) :
    (process_repo u priority clone env).2.tmpRemoved = true := by
  unfold process_repo at hcr ⊢
  cases hp : parse_github_url u with
  | error msg => rw [hp] at hcr; simp at hcr
  | ok pr =>
    rw [hc]
    dsimp only [if_true]
    cases hs : (select_important_files
        (filter_files clone.repoFiles priority) env.selectReply 20).result with
    | error e => rfl
    | ok important =>
      by_cases hk : env.summarizeOk
      · simp [hk]
      · simp [hk]

theorem process_repo_cleanup_after_clone_witness :
    (process_repo demoUrl "all" ⟨true, []⟩ demoEnv).2.tmpRemoved = true :=
  process_repo_cleanup_after_clone demoUrl "all" ⟨true, []⟩ demoEnv rfl rfl

/-- C7: any priority mode other than `all`, `high`, `high+medium` is
rejected by the endpoint with a 400 validation error before any external
work: no clone call, no temp directory, no oracle call — and no silent
default. -/
theorem summarize_priority_validation (u : ParsedUrl) (priority : String)
    (clone : CloneOutcome) (env : OracleEnv)
    (h : VALID_PRIORITIES.contains priority = false) :
    (∃ d, (summarize u priority clone env).1 = .error (400, d)) ∧
    (summarize u priority clone env).2.cloneCalled = false ∧
    (summarize u priority clone env).2.tmpCreated = false ∧
    (summarize u priority clone env).2.oracleCalled = false := by
  unfold summarize
  cases hp : parse_github_url u with
  | error msg => exact ⟨⟨msg, rfl⟩, rfl, rfl, rfl⟩
  | ok pr =>
    dsimp only
    rw [h]
    exact ⟨⟨_, rfl⟩, rfl, rfl, rfl⟩

theorem summarize_priority_validation_witness :
    (∃ d, (summarize demoUrl "medium" ⟨false, []⟩ demoEnv).1 =
      .error (400, d)) ∧
    (summarize demoUrl "medium" ⟨false, []⟩ demoEnv).2.cloneCalled = false ∧
    (summarize demoUrl "medium" ⟨false, []⟩ demoEnv).2.tmpCreated = false ∧
    (summarize demoUrl "medium" ⟨false, []⟩ demoEnv).2.oracleCalled = false :=
  summarize_priority_validation demoUrl "medium" ⟨false, []⟩ demoEnv
    (by decide)

/-! ### C10 — only the first MAX_FILES files are rendered -/

/-- C10: the chunk list assembled by `read_all_contents` depends only on
the first `MAX_FILES` (150) entries of the selected file list
(`files_to_read = files[:MAX_FILES]`): cutting the list at 150 leaves the
rendered chunks unchanged, whatever the remaining budget; and the document
is exactly the tree (over the whole list) plus those chunks. -/
theorem read_all_contents_first_max_files :
    (∀ (tree : String) (files : List RepoFile),
      contextParts tree files = contextParts tree (files.take MAX_FILES)) ∧
    (∀ files : List RepoFile,
      read_all_contents files =
        buildDirectoryTree files ++ "\n\n" ++
          joinSep "\n\n" (contextParts (buildDirectoryTree files) files)) := by
  refine ⟨fun tree files => ?_, fun files => rfl⟩
  unfold contextParts
  rw [List.take_take]
  simp

/-! ### C6 — truncation cuts at line boundaries -/

theorem rfindNewline_spec (l : List Char) (i : Nat)
    (h : rfindNewline l = some i) : i < l.length ∧ l[i]? = some '\n' := by
  induction l generalizing i with
  | nil => simp [rfindNewline] at h
  | cons c rest ih =>
    simp only [rfindNewline] at h
    cases hr : rfindNewline rest with
    | some j =>
      rw [hr] at h
      simp only [Option.some.injEq] at h
      subst h
      obtain ⟨hj, hget⟩ := ih j hr
      refine ⟨by simp; omega, ?_⟩
      simpa using hget
    | none =>
      rw [hr] at h
      by_cases hcn : c = '\n'
      · rw [if_pos hcn] at h
        simp only [Option.some.injEq] at h
        subst h
        simp [hcn]
      · rw [if_neg hcn] at h
        cases h

/-- C6 (amended): whenever `_truncate_to_tokens` cuts, the marker is
appended; and IF the decoded token-count prefix contains a newline at a
positive index, the cut lands on a line boundary: the kept text is a
prefix of the original ending exactly before one of its newlines — so its
last line is a complete original line.  (When the prefix contains no
newline, or only one at index 0, the code keeps the mid-line prefix
unchanged — see the counterexample.) -/
theorem truncate_to_tokens_line_boundary (text : String) (m : Nat)
    (hcut : m < text.data.length) :
    (∃ p, truncateToTokens text m = p ++ truncMarker) ∧
    (∀ i, rfindNewline (text.data.take m) = some i → 0 < i →
      truncateToTokens text m = String.mk (text.data.take i) ++ truncMarker ∧
      ∃ rest, text.data = text.data.take i ++ '\n' :: rest) := by
  have hnle : ¬ (text.data.length ≤ m) := not_le.mpr hcut
  unfold truncateToTokens
  rw [if_neg hnle]
  refine ⟨⟨_, rfl⟩, fun i hf hi => ?_⟩
  obtain ⟨hilt, hget⟩ := rfindNewline_spec _ _ hf
  have him : i < m := lt_of_lt_of_le hilt (List.length_take_le _ _)
  have hgetfull : text.data[i]? = some '\n' := by
    rw [List.getElem?_take] at hget
    rwa [if_pos him] at hget
  have hifull : i < text.data.length := lt_trans him hcut
  dsimp only
  rw [hf]
  dsimp only
  rw [if_pos hi]
  constructor
  · rw [List.take_take, min_eq_left (le_of_lt him)]
  · refine ⟨text.data.drop (i + 1), ?_⟩
    conv_lhs => rw [← List.take_append_drop i text.data]
    congr 1
    rw [List.drop_eq_getElem_cons hifull]
    congr 1
    have := List.getElem?_eq_getElem hifull
    rw [this] at hgetfull
    exact (Option.some.injEq _ _ ▸ hgetfull : _)

/-- C6 (counterexample): truncating `"abcdef"` to 3 tokens keeps the
mid-line prefix `"abc"` before the marker — `"abc"` is not a complete line
of the original (whose only line is `"abcdef"`): the cut does NOT happen
only at line boundaries. -/
theorem truncate_to_tokens_midline_counterexample :
    truncateToTokens "abcdef" 3 = "abc" ++ truncMarker ∧
    "abc" ∉ (splitOnChar '\n' ("abcdef" : String).data).map String.mk := by
  constructor
  · rfl
  · decide

theorem truncate_to_tokens_line_boundary_witness :
    (∃ p, truncateToTokens "ab\ncd\nef" 4 = p ++ truncMarker) ∧
    (truncateToTokens "ab\ncd\nef" 4 =
      String.mk (("ab\ncd\nef" : String).data.take 2) ++ truncMarker ∧
     ∃ rest, ("ab\ncd\nef" : String).data =
      ("ab\ncd\nef" : String).data.take 2 ++ '\n' :: rest) := by
  have h := truncate_to_tokens_line_boundary "ab\ncd\nef" 4 (by decide)
  exact ⟨h.1, h.2 2 (by decide) (by decide)⟩


/-! ### C1 — the token ceiling of the Budgeter -/

theorem countTokens_append (a b : String) :
    countTokens (a ++ b) = countTokens a + countTokens b :=
  String.length_append a b

theorem joinSep_length_le (sep : String) :
    ∀ l : List String, countTokens (joinSep sep l) ≤
      (l.map countTokens).sum + countTokens sep * l.length
  | [] => by simp [joinSep, countTokens]
  | [s] => by simp [joinSep, countTokens]
  | s :: t :: rest => by
    have ih := joinSep_length_le sep (t :: rest)
    show countTokens ((s ++ sep) ++ joinSep sep (t :: rest)) ≤ _
    rw [countTokens_append, countTokens_append]
    simp only [List.map_cons, List.sum_cons, List.length_cons] at ih ⊢
    rw [Nat.mul_succ]
    omega

theorem addTrimmable_spec (B per : Nat) :
    ∀ (fs : List RepoFile) (total : Nat), total ≤ B →
      (addTrimmable B per total fs).2 ≤ B ∧
      (addTrimmable B per total fs).2 =
        total + ((addTrimmable B per total fs).1.map countTokens).sum ∧
      (addTrimmable B per total fs).1.length ≤ fs.length
  | [], total, h => by simp [addTrimmable, h]
  | f :: rest, total, h => by
    dsimp only [addTrimmable]
    by_cases hover : total + countTokens (trimChunk per f) > B
    · rw [if_pos hover]
      exact ⟨h, by simp, by simp⟩
    · rw [if_neg hover]
      have hle : total + countTokens (trimChunk per f) ≤ B := not_lt.mp hover
      obtain ⟨h1, h2, h3⟩ := addTrimmable_spec B per rest
        (total + countTokens (trimChunk per f)) hle
      refine ⟨h1, ?_, by simpa using Nat.succ_le_succ h3⟩
      simp only [List.map_cons, List.sum_cons]
      omega

/-- The budget-loop invariant, phrased on the emitted chunk list: starting
within budget, the appended chunks' accounted tokens stay within it. -/
theorem addTrimmable_bound (B per total : Nat) (fs : List RepoFile)
    (h : total ≤ B) :
    ((addTrimmable B per total fs).1.map countTokens).sum + total ≤ B ∧
    (addTrimmable B per total fs).1.length ≤ fs.length := by
  obtain ⟨h1, h2, h3⟩ := addTrimmable_spec B per fs total h
  exact ⟨by omega, h3⟩

/-- When none of the (readable, first-150) files bears a full-read name and
the tree fits the net budget, the accounted token total of the assembled
chunks stays within the budget and at most `MAX_FILES` chunks are
emitted. -/
theorem contextParts_no_full_bound (tree : String) (files : List RepoFile)
    (hfr : ((files.take MAX_FILES).filter (fun f => f.readOk)).filter
      (fun f => FULL_READ_NAMES.contains f.fname) = [])
    (htree : countTokens tree ≤
      MAX_CONTEXT_TOKENS - countTokens SYSTEM_PROMPT) :
    ((contextParts tree files).map countTokens).sum + countTokens tree ≤
      MAX_CONTEXT_TOKENS - countTokens SYSTEM_PROMPT ∧
    (contextParts tree files).length ≤ MAX_FILES := by
  unfold contextParts
  dsimp only
  rw [hfr]
  simp only [List.map_nil, List.sum_nil, Nat.add_zero, List.nil_append]
  split
  · constructor
    · exact (addTrimmable_bound _ _ _ _ htree).1
    · exact le_trans (addTrimmable_bound _ _ _ _ htree).2
        (le_trans (List.length_filter_le _ _)
          (le_trans (List.length_filter_le _ _) (List.length_take_le _ _)))
  · constructor
    · simpa using htree
    · simp [MAX_FILES]

set_option maxRecDepth 40000 in
/-- C1 (amended): the ceiling is NOT unconditional.  It holds — and only up
to the unaccounted two-character chunk separators, at most
`2·(MAX_FILES+1)` extra tokens — under two hypotheses the code silently
relies on: no selected readable file among the first `MAX_FILES` bears a
full-read name (full-read chunks are appended with no budget check at
all), and the directory tree alone fits the net budget (it, too, is never
checked).  The counterexample shows the unconditional claim false. -/
theorem read_all_contents_budget_slack (files : List RepoFile)
    (hfull : ∀ f ∈ files.take MAX_FILES, f.readOk = true →
      FULL_READ_NAMES.contains f.fname = false)
    (htree : countTokens (buildDirectoryTree files) ≤
      MAX_CONTEXT_TOKENS - countTokens SYSTEM_PROMPT) :
    countTokens (read_all_contents files) + countTokens SYSTEM_PROMPT ≤
      MAX_CONTEXT_TOKENS + 2 * (MAX_FILES + 1) := by
  have hfr : ((files.take MAX_FILES).filter (fun f => f.readOk)).filter
      (fun f => FULL_READ_NAMES.contains f.fname) = [] := by
    rw [List.filter_eq_nil_iff]
    intro f hf
    rw [List.mem_filter] at hf
    simpa using hfull f hf.1 hf.2
  obtain ⟨hsum, hlen⟩ := contextParts_no_full_bound
    (buildDirectoryTree files) files hfr htree
  have hsep : countTokens ("\n\n" : String) = 2 := by decide
  have hjoin : countTokens (joinSep "\n\n"
      (contextParts (buildDirectoryTree files) files)) ≤
      ((contextParts (buildDirectoryTree files) files).map countTokens).sum +
        2 * (contextParts (buildDirectoryTree files) files).length := by
    have h := joinSep_length_le "\n\n"
      (contextParts (buildDirectoryTree files) files)
    rw [hsep] at h
    exact h
  have hdoc : countTokens (read_all_contents files) =
      countTokens (buildDirectoryTree files) + countTokens ("\n\n" : String) +
        countTokens (joinSep "\n\n"
          (contextParts (buildDirectoryTree files) files)) := by
    show countTokens (buildDirectoryTree files ++ "\n\n" ++
      joinSep "\n\n" (contextParts (buildDirectoryTree files) files)) = _
    rw [countTokens_append, countTokens_append]
  have hsys : countTokens SYSTEM_PROMPT = 932 := by decide
  have hM : MAX_CONTEXT_TOKENS = 100000 := rfl
  have hMF : MAX_FILES = 150 := rfl
  rw [hdoc, hsep]
  omega

def smallPyFile : RepoFile := ⟨[], "x.py", "hello", 0, true, true⟩

set_option maxRecDepth 40000 in
theorem read_all_contents_budget_slack_witness :
    countTokens (read_all_contents [smallPyFile]) + countTokens SYSTEM_PROMPT ≤
      MAX_CONTEXT_TOKENS + 2 * (MAX_FILES + 1) :=
  read_all_contents_budget_slack [smallPyFile] (by decide) (by decide)

/-- Helper for the counterexample: a lone root `README.md` is a full-read
file; its chunk is appended with no budget check, so the document contains
its whole content, whatever the content's token count. -/
def bigReadme (c : String) : RepoFile := ⟨[], "README.md", c, 0, true, true⟩

theorem read_all_contents_bigReadme (c : String) :
    read_all_contents [bigReadme c] =
      "# Directory Structure\n```\nREADME.md\n```\n\n" ++
        (("## File: README.md\n```\n" ++ c) ++ "\n```") := rfl

def hugeContent : String := String.mk (List.replicate 100001 'x')

/-- C1 (counterexample): a repository whose only candidate is a 100001-token
`README.md`.  `read_all_contents` renders it in full (full-read files skip
the budget check), so the returned document plus the system prompt exceeds
`MAX_CONTEXT_TOKENS`: the claimed invariant fails. -/
theorem read_all_contents_budget_counterexample :
    MAX_CONTEXT_TOKENS <
      countTokens (read_all_contents [bigReadme hugeContent]) +
        countTokens SYSTEM_PROMPT := by
  have h := read_all_contents_bigReadme hugeContent
  have hlen : countTokens (read_all_contents [bigReadme hugeContent]) =
      countTokens ("# Directory Structure\n```\nREADME.md\n```\n\n" : String) +
        (countTokens ("## File: README.md\n```\n" : String) +
          countTokens hugeContent +
          countTokens ("\n```" : String)) := by
    rw [h, countTokens_append, countTokens_append, countTokens_append]
  have hhuge : countTokens hugeContent = 100001 := by
    show (String.mk (List.replicate 100001 'x')).length = 100001
    show (List.replicate 100001 'x').length = 100001
    rw [List.length_replicate]
  have hM : MAX_CONTEXT_TOKENS = 100000 := rfl
  rw [hlen, hhuge]
  omega

theorem select_important_files_subset_len_witness :
    (∀ x ∈ files21, x ∈ files21) ∧
    files21.length ≤ max 20 (matchedFiles files21 (.ok reply21)).length :=
  select_important_files_subset_len files21 (.ok reply21) files21 rfl
